import Mathlib

set_option autoImplicit false

/-!
# Verification of the AgentWealth frontend glue code

A shallow embedding of the TypeScript/Angular code of the AgentWealth
repository (agent HTTP services, dashboard chat, learning page, trading
simulators), together with proofs and refutations of the specification
claims about it.
-/

namespace AgentWealth

/-! ## JavaScript value model -/

/-- JSON-like JavaScript values exchanged with the agent services.
Numeric literals relevant to the claims are integral, so numbers are
modelled as integers here; the trading simulators (which need decimal
arithmetic) are modelled over `ℚ` separately. -/
inductive Json where
  | null : Json
  | bool (b : Bool) : Json
  | num (n : Int) : Json
  | str (s : String) : Json
  | arr (elems : List Json) : Json
  | obj (fields : List (String × Json)) : Json
deriving Repr

namespace Json

/-- First-match association-list lookup (object field access). -/
def lookupField : List (String × Json) → String → Option Json
  | [], _ => none
  | (k, v) :: rest, key => if k = key then some v else lookupField rest key

/-- JavaScript property access `v.k`: a value on objects, `undefined`
(here `none`) on other values. -/
def getField : Json → String → Option Json
  | obj fields, k => lookupField fields k
  | _, _ => none

/-- JavaScript truthiness of a JSON value. -/
def jsTruthy : Json → Bool
  | null => false
  | bool b => b
  | num n => n != 0
  | str s => s != ""
  | arr _ => true
  | obj _ => true

/-- Is the value a string? -/
def isStr : Json → Bool
  | str _ => true
  | _ => false

/-- The `JSON.stringify` escaping of one string character (the cases relevant
here: quote, backslash, newline; all other characters pass through). -/
def escapeChar (c : Char) : String :=
  if c = '"' then "\\\""
  else if c = '\\' then "\\\\"
  else if c = '\n' then "\\n"
  else String.mk [c]

/-- The `JSON.stringify` escaping of string contents. -/
def escapeStr (s : String) : String :=
  String.join (s.data.map escapeChar)

mutual

/-- JavaScript `JSON.stringify`. -/
def stringify : Json → String
  | .null => "null"
  | .bool true => "true"
  | .bool false => "false"
  | .num n => toString n
  | .str s => "\"" ++ escapeStr s ++ "\""
  | .arr elems => "[" ++ stringifyElems elems ++ "]"
  | .obj fields => "\x7b" ++ stringifyFields fields ++ "\x7d"

/-- The `JSON.stringify` rendering of array elements, comma separated. -/
def stringifyElems : List Json → String
  | [] => ""
  | [v] => stringify v
  | v :: v2 :: rest => stringify v ++ "," ++ stringifyElems (v2 :: rest)

/-- The `JSON.stringify` rendering of object fields, comma separated. -/
def stringifyFields : List (String × Json) → String
  | [] => ""
  | [(k, v)] => "\"" ++ escapeStr k ++ "\":" ++ stringify v
  | (k, v) :: f2 :: rest =>
      "\"" ++ escapeStr k ++ "\":" ++ stringify v ++ "," ++ stringifyFields (f2 :: rest)

end

/-- The JavaScript expression `a || b` where `a` is a (possibly absent)
field access: a falsy or absent `a` falls through to `b`. -/
def jsOrElse (a : Option Json) (b : Json) : Json :=
  match a with
  | some v => if jsTruthy v then v else b
  | none => b

/-- The mapping `response.response || response.text || JSON.stringify(response)`
applied by the success branch of the agent-service pipes. -/
def responseField (reply : Json) : Json :=
  jsOrElse (reply.getField "response")
    (jsOrElse (reply.getField "text") (str (stringify reply)))

end Json

/-! ## JavaScript string helpers -/

/-- JavaScript `String.prototype.trim` (whitespace at both ends). -/
def jsTrim (s : String) : String :=
  String.mk (((s.data.dropWhile Char.isWhitespace).reverse.dropWhile
    Char.isWhitespace).reverse)

/-- JavaScript `s.substring(0, n)`: the first `n` characters of `s`. -/
def jsSubstringTo (s : String) (n : Nat) : String :=
  String.mk (s.data.take n)

/-- Does `pat` occur at the head of `cs`? -/
def startsWithL : List Char → List Char → Bool
  | _, [] => true
  | [], _ :: _ => false
  | a :: rest, b :: rest2 => a == b && startsWithL rest rest2

/-- Contiguous-substring occurrence test on character lists. -/
def containsSub (pat : List Char) : List Char → Bool
  | [] => pat.isEmpty
  | c :: rest => startsWithL (c :: rest) pat || containsSub pat rest

/-- JavaScript `s.includes(pat)`. -/
def jsIncludes (s pat : String) : Bool :=
  containsSub pat.data s.data

/-- Replace the first occurrence of the plain pattern `pat` by `rep`
(JavaScript `s.replace(pat, rep)` with a string pattern). -/
def replaceFirstL (pat rep : List Char) : List Char → List Char
  | [] => []
  | c :: rest =>
    if startsWithL (c :: rest) pat then rep ++ (c :: rest).drop pat.length
    else c :: replaceFirstL pat rep rest

/-- JavaScript `s.replace(pat, rep)` for a plain-string pattern. -/
def jsReplaceFirst (s pat rep : String) : String :=
  String.mk (replaceFirstL pat.data rep.data s.data)

/-! ## Environment configuration

The constants of `src/environments/environment.ts` in its two revisions
(`src/unnamed/part_004` and `src/frontend/src/environments/environment.ts`),
and the process list of `src/backend/run.sh`. -/

/-- The `agentServices` record of `environment.ts`. -/
structure AgentServicesConfig where
  assessmentAgent : String
  planningAgent : String
  progressAgent : String
  contentDeliveryAgent : String

/-- The keys of `environment.agentServices`. -/
inductive AgentType where
  | assessmentAgent
  | planningAgent
  | progressAgent
  | contentDeliveryAgent
deriving DecidableEq, Repr

/-- The literal TypeScript key of an agent type. -/
def AgentType.key : AgentType → String
  | .assessmentAgent => "assessmentAgent"
  | .planningAgent => "planningAgent"
  | .progressAgent => "progressAgent"
  | .contentDeliveryAgent => "contentDeliveryAgent"

/-- Indexing `this.agentUrls[agentType]`. -/
def AgentServicesConfig.url (cfg : AgentServicesConfig) : AgentType → String
  | .assessmentAgent => cfg.assessmentAgent
  | .planningAgent => cfg.planningAgent
  | .progressAgent => cfg.progressAgent
  | .contentDeliveryAgent => cfg.contentDeliveryAgent

/-- Development environment of the earlier revision
(`src/unnamed/part_004`, `environment.ts (Development)`). -/
def envDev : AgentServicesConfig where
  assessmentAgent := "http://localhost:8000"
  planningAgent := "http://localhost:8001"
  progressAgent := "http://localhost:8002"
  contentDeliveryAgent := "http://localhost:8003"

/-- Production environment of the earlier revision
(`src/unnamed/part_004`, `environment.prod.ts`). -/
def envProd : AgentServicesConfig where
  assessmentAgent := "https://your-api.herokuapp.com/assessment"
  planningAgent := "https://your-api.herokuapp.com/planning"
  progressAgent := "https://your-api.herokuapp.com/progress"
  contentDeliveryAgent := "https://your-api.herokuapp.com/content"

/-- Development environment of `src/frontend/src/environments/environment.ts`:
all four agents are addressed through the CORS proxy on port 5001. -/
def envProxy : AgentServicesConfig where
  assessmentAgent := "http://localhost:5001/assessment"
  planningAgent := "http://localhost:5001/planning"
  progressAgent := "http://localhost:5001/progress"
  contentDeliveryAgent := "http://localhost:5001/content"

/-- Numeric value of a digit string. -/
def digitsVal (cs : List Char) : Nat :=
  cs.foldl (fun n c => n * 10 + (c.toNat - 48)) 0

/-- The remainder of `cs` after the first occurrence of `pat`. -/
def dropAfterSub (pat : List Char) : List Char → Option (List Char)
  | [] => if pat.isEmpty then some [] else none
  | c :: rest =>
    if startsWithL (c :: rest) pat then some ((c :: rest).drop pat.length)
    else dropAfterSub pat rest

/-- The TCP port targeted by a `http://localhost:PORT/...` URL
(`none` for URLs that do not mention `localhost:`). -/
def urlPort (url : String) : Option Nat :=
  (dropAfterSub "localhost:".data url.data).map fun rest =>
    digitsVal (rest.takeWhile Char.isDigit)

/-- The Flask processes launched by `src/backend/run.sh`:
Flask app module paired with the port passed to `flask run -p`. -/
def runShProcesses : List (String × Nat) :=
  [("assessment_agent.main", 8000),
   ("planning_agent.main", 8001),
   ("progress_agent.main", 8002),
   ("content_delivery_agent.main", 8003)]

/-! ## HTTP and rxjs pipeline model

An `HttpClient.post` observable emits either the parsed JSON reply or an
error; `map` and `catchError(err => of(v))` are the two pipe operators the
services use. -/

/-- One HTTP POST request as issued by the services. -/
structure HttpRequest where
  url : String
  body : Json

/-- Outcome of a single HTTP POST: a parsed JSON reply, or a failure. -/
inductive HttpOutcome where
  | ok (body : Json)
  | err (e : Json)

/-- What an observable delivers to a subscriber: a next value or an error. -/
inductive Emission where
  | next (v : Json)
  | error (e : Json)

/-- The emission of the raw `http.post` observable. -/
def httpEmission : HttpOutcome → Emission
  | .ok body => .next body
  | .err e => .error e

/-- The `map` operator of an rxjs pipe. -/
def rxMap (f : Json → Json) : Emission → Emission
  | .next v => .next (f v)
  | .error e => .error e

/-- The `catchError(err => of(fallback err))` operator: an error is
replaced by a plain emission of the fallback value. -/
def rxCatch (fallback : Json → Json) : Emission → Emission
  | .next v => .next v
  | .error e => .next (fallback e)

/-- The object literal of every `catchError` branch in the services:
`{ response: msg, status: 'error' }`. -/
def errorAgentResponse (msg : String) : Json :=
  .obj [("response", .str msg), ("status", .str "error")]

/-- The object literal of the `map` branch in the rev-2/rev-3 services:
`{ response: response.response || response.text || JSON.stringify(response),
status: 'success', data: response }`. -/
def successAgentResponse (reply : Json) : Json :=
  .obj [("response", Json.responseField reply),
        ("status", .str "success"),
        ("data", reply)]

/-! ## AgentService, revision 1
(`src/digital-literacy-app/src/app/agent.service.ts`)

Each send method posts the flat body `{ message, user_id }` to
`<agentUrl>/run` and pipes only `catchError`, returning a static
per-method error object. `sendToAgent` dispatches by a switch over the
four agent keys to the four named methods. -/

namespace ServiceV1

/-- Request body `{ message: message, user_id: userId }`. -/
def requestBody (userId message : String) : Json :=
  .obj [("message", .str message), ("user_id", .str userId)]

/-- The single POST issued by one send invocation. -/
def request (cfg : AgentServicesConfig) (t : AgentType)
    (userId message : String) : HttpRequest :=
  ⟨cfg.url t ++ "/run", requestBody userId message⟩

/-- All requests issued by one send invocation: exactly one POST, the
pipe operators (`catchError` returning `of(...)`) issue no retries. -/
def requests (cfg : AgentServicesConfig) (t : AgentType)
    (userId message : String) : List HttpRequest :=
  [request cfg t userId message]

/-- The static error string of each method's `catchError` branch. -/
def errorText : AgentType → String
  | .assessmentAgent => "Sorry, I encountered an error. Please try again."
  | .planningAgent => "Planning agent is currently unavailable."
  | .progressAgent => "Progress tracking is currently unavailable."
  | .contentDeliveryAgent => "Content delivery is currently unavailable."

/-- What each send method's observable delivers for a given HTTP outcome:
`http.post` piped through `catchError` only (no `map` in this revision). -/
def emission (t : AgentType) (outcome : HttpOutcome) : Emission :=
  rxCatch (fun _ => errorAgentResponse (errorText t)) (httpEmission outcome)

end ServiceV1

/-! ## AgentService, revision 2 (`src/unnamed/part_006`)

Each send method posts an ADK body
`{ appName, userId, sessionId: "session_" + userId.substring(0, 8),
newMessage: { text } }` and pipes `map` (building a success
`AgentResponse`) then `catchError` (static per-method error object).
The generic `sendToAgent` builds `appName` by
`agentType.replace('Agent', '_agent')`. -/

namespace ServiceV2

/-- The hardcoded `appName` of each named send method. -/
def appName : AgentType → String
  | .assessmentAgent => "assessment_agent"
  | .planningAgent => "planning_agent_a2a"
  | .progressAgent => "progress_agent_a2a"
  | .contentDeliveryAgent => "content_delivery_agent_a2a"

/-- The ADK request body of the four named send methods. -/
def requestBody (t : AgentType) (userId message : String) : Json :=
  .obj [("appName", .str (appName t)),
        ("userId", .str userId),
        ("sessionId", .str ("session_" ++ jsSubstringTo userId 8)),
        ("newMessage", .obj [("text", .str message)])]

/-- The single POST issued by one named send invocation. -/
def requests (cfg : AgentServicesConfig) (t : AgentType)
    (userId message : String) : List HttpRequest :=
  [⟨cfg.url t ++ "/run", requestBody t userId message⟩]

/-- The static error string of each method's `catchError` branch. -/
def errorText : AgentType → String
  | .assessmentAgent => "Sorry, I encountered an error. Please try again."
  | .planningAgent => "Planning agent is currently unavailable."
  | .progressAgent => "Progress tracking is currently unavailable."
  | .contentDeliveryAgent => "Content delivery is currently unavailable."

/-- What each named send method's observable delivers:
`http.post` piped through `map` then `catchError`. -/
def emission (t : AgentType) (outcome : HttpOutcome) : Emission :=
  rxCatch (fun _ => errorAgentResponse (errorText t))
    (rxMap successAgentResponse (httpEmission outcome))

/-- The `appName` of the generic `sendToAgent`:
`agentType.replace('Agent', '_agent')`. -/
def genericAppName (t : AgentType) : String :=
  jsReplaceFirst t.key "Agent" "_agent"

/-- The ADK request body of the generic `sendToAgent`. -/
def genericBody (t : AgentType) (userId message : String) : Json :=
  .obj [("appName", .str (genericAppName t)),
        ("userId", .str userId),
        ("sessionId", .str ("session_" ++ jsSubstringTo userId 8)),
        ("newMessage", .obj [("text", .str message)])]

/-- What the generic `sendToAgent` observable delivers. -/
def genericEmission (outcome : HttpOutcome) : Emission :=
  rxCatch (fun _ => errorAgentResponse "Agent is currently unavailable.")
    (rxMap successAgentResponse (httpEmission outcome))

end ServiceV2

/-! ## AgentService, revision 3 (`src/frontend/src/app/agent.service.ts`)

`sendToAssessmentAgent` posts only `{ newMessage: { text: message } }`
(no `appName`, `userId` or `sessionId`). The planning/progress/content
methods delegate to the generic `sendToAgent`, whose ADK body also
carries a `contents` array. Both pipe `map` then `catchError`. -/

namespace ServiceV3

/-- Body of `sendToAssessmentAgent`: `{ newMessage: { text: message } }`. -/
def assessBody (message : String) : Json :=
  .obj [("newMessage", .obj [("text", .str message)])]

/-- The single POST issued by one `sendToAssessmentAgent` invocation. -/
def assessRequests (cfg : AgentServicesConfig) (message : String) :
    List HttpRequest :=
  [⟨cfg.assessmentAgent ++ "/run", assessBody message⟩]

/-- What `sendToAssessmentAgent`'s observable delivers. -/
def assessEmission (outcome : HttpOutcome) : Emission :=
  rxCatch
    (fun _ =>
      errorAgentResponse "Sorry, I encountered an error. Please try again.")
    (rxMap successAgentResponse (httpEmission outcome))

/-- The ADK body of the generic `sendToAgent`, including the `contents`
array (`[{ parts: [{ text: message }], role: "user" }]`). -/
def agentBody (t : AgentType) (userId message : String) : Json :=
  .obj [("appName", .str (jsReplaceFirst t.key "Agent" "_agent")),
        ("userId", .str userId),
        ("sessionId", .str ("session_" ++ jsSubstringTo userId 8)),
        ("newMessage", .obj [("text", .str message)]),
        ("contents",
          .arr [.obj [("parts", .arr [.obj [("text", .str message)]]),
                      ("role", .str "user")]])]

/-- The single POST issued by one generic `sendToAgent` invocation
(also by `sendToPlanningAgent` / `sendToProgressAgent` /
`sendToContentAgent`, which delegate to it). -/
def agentRequests (cfg : AgentServicesConfig) (t : AgentType)
    (userId message : String) : List HttpRequest :=
  [⟨cfg.url t ++ "/run", agentBody t userId message⟩]

/-- What the generic `sendToAgent` observable delivers. -/
def agentEmission (outcome : HttpOutcome) : Emission :=
  rxCatch (fun _ => errorAgentResponse "Agent is currently unavailable.")
    (rxMap successAgentResponse (httpEmission outcome))

end ServiceV3

/-! ## Claim-side request shapes (from the spec wording) -/

/-- Shape asserted by the spec: the flat body `{ message, user_id }`
with the message text and the user id filled in. -/
def FlatShape (b : Json) (userId message : String) : Prop :=
  b.getField "message" = some (.str message) ∧
  b.getField "user_id" = some (.str userId)

/-- Shape asserted by the spec: an ADK-style body
`{ appName, userId, sessionId, newMessage: { text } }` with the user id,
the message text and a sessionId derived from the first 8 characters of
the user id filled in. -/
def AdkShape (b : Json) (userId message : String) : Prop :=
  (∃ a, b.getField "appName" = some (.str a)) ∧
  b.getField "userId" = some (.str userId) ∧
  b.getField "sessionId" =
    some (.str ("session_" ++ jsSubstringTo userId 8)) ∧
  (b.getField "newMessage").bind (fun m => m.getField "text") =
    some (.str message)

/-- The truncated shape actually sent by the frontend revision's
`sendToAssessmentAgent`: only `newMessage.text`, no user identity. -/
def BareNewMessageShape (b : Json) (message : String) : Prop :=
  (b.getField "newMessage").bind (fun m => m.getField "text") =
    some (.str message) ∧
  b.getField "userId" = none ∧
  b.getField "user_id" = none ∧
  b.getField "appName" = none ∧
  b.getField "sessionId" = none

/-- C1 (counterexample): the frontend revision's `sendToAssessmentAgent`
body is neither the flat `{ message, user_id }` shape nor an ADK body
with `userId` and `sessionId` filled in — it carries no user identity at
all, refuting the claim for this send operation. -/
theorem claim_C1_counterexample :
    ¬ (FlatShape (ServiceV3.assessBody "hello") "google-oauth2|1234" "hello" ∨
       AdkShape (ServiceV3.assessBody "hello") "google-oauth2|1234" "hello") := by
  rintro (⟨h1, _⟩ | ⟨_, h2, _⟩)
  · exact Option.noConfusion h1
  · exact Option.noConfusion h2

/-- C1 (amended): every send operation issues a single HTTP POST to
`/run` under the configured agent base URL; revision 1 sends the flat
`{ message, user_id }` body, revision 2 and the frontend generic
`sendToAgent` send the full ADK body (userId, message text, sessionId
from the first 8 characters of the user id), while the frontend
revision's `sendToAssessmentAgent` sends only `{ newMessage: { text } }`
with no appName, userId or sessionId. -/
theorem claim_C1_amended :
    ∀ (cfg : AgentServicesConfig) (t : AgentType) (uid msg : String),
      ServiceV1.requests cfg t uid msg =
        [⟨cfg.url t ++ "/run", ServiceV1.requestBody uid msg⟩] ∧
      ServiceV2.requests cfg t uid msg =
        [⟨cfg.url t ++ "/run", ServiceV2.requestBody t uid msg⟩] ∧
      ServiceV3.agentRequests cfg t uid msg =
        [⟨cfg.url t ++ "/run", ServiceV3.agentBody t uid msg⟩] ∧
      ServiceV3.assessRequests cfg msg =
        [⟨cfg.assessmentAgent ++ "/run", ServiceV3.assessBody msg⟩] ∧
      FlatShape (ServiceV1.requestBody uid msg) uid msg ∧
      AdkShape (ServiceV2.requestBody t uid msg) uid msg ∧
      AdkShape (ServiceV2.genericBody t uid msg) uid msg ∧
      AdkShape (ServiceV3.agentBody t uid msg) uid msg ∧
      BareNewMessageShape (ServiceV3.assessBody msg) msg ∧
      ¬ AdkShape (ServiceV3.assessBody msg) uid msg ∧
      ¬ FlatShape (ServiceV3.assessBody msg) uid msg := by
  intro cfg t uid msg
  refine ⟨rfl, rfl, rfl, rfl, ⟨rfl, rfl⟩,
    ⟨⟨_, rfl⟩, rfl, rfl, rfl⟩, ⟨⟨_, rfl⟩, rfl, rfl, rfl⟩,
    ⟨⟨_, rfl⟩, rfl, rfl, rfl⟩, ⟨rfl, rfl, rfl, rfl, rfl⟩, ?_, ?_⟩
  · rintro ⟨_, h2, _⟩
    exact Option.noConfusion h2
  · rintro ⟨h1, _⟩
    exact Option.noConfusion h1

/-- C2: for every failing HTTP call, every send operation in every
revision still emits a value whose `response` is a static string
depending only on the method (never on the error), with status
`'error'`; and each invocation issues exactly one HTTP request. -/
theorem claim_C2 :
    ∀ (e : Json) (t : AgentType) (cfg : AgentServicesConfig)
      (uid msg : String),
      ServiceV1.emission t (.err e) =
        .next (errorAgentResponse (ServiceV1.errorText t)) ∧
      ServiceV2.emission t (.err e) =
        .next (errorAgentResponse (ServiceV2.errorText t)) ∧
      ServiceV2.genericEmission (.err e) =
        .next (errorAgentResponse "Agent is currently unavailable.") ∧
      ServiceV3.assessEmission (.err e) =
        .next (errorAgentResponse
          "Sorry, I encountered an error. Please try again.") ∧
      ServiceV3.agentEmission (.err e) =
        .next (errorAgentResponse "Agent is currently unavailable.") ∧
      (errorAgentResponse (ServiceV1.errorText t)).getField "status" =
        some (.str "error") ∧
      (errorAgentResponse (ServiceV1.errorText t)).getField "response" =
        some (.str (ServiceV1.errorText t)) ∧
      (ServiceV1.requests cfg t uid msg).length = 1 ∧
      (ServiceV2.requests cfg t uid msg).length = 1 ∧
      (ServiceV3.agentRequests cfg t uid msg).length = 1 ∧
      (ServiceV3.assessRequests cfg msg).length = 1 :=
  fun _ _ _ _ _ => ⟨rfl, rfl, rfl, rfl, rfl, rfl, rfl, rfl, rfl, rfl, rfl⟩

/-- C3 (counterexample): a server reply whose `response` field is a
truthy non-string (here the number 42) is passed through the
`response.response || response.text || JSON.stringify(response)` mapping
unchanged, so the caller observes a non-string `response` field. -/
theorem claim_C3_counterexample :
    ServiceV3.agentEmission (.ok (.obj [("response", .num 42)])) =
      .next (.obj [("response", .num 42), ("status", .str "success"),
                   ("data", .obj [("response", .num 42)])]) ∧
    ((successAgentResponse (.obj [("response", .num 42)])).getField
      "response").map Json.isStr = some false :=
  ⟨rfl, rfl⟩

/-- An optional field that is a string whenever it is present and truthy. -/
def StrWhenTruthy (o : Option Json) : Prop :=
  ∀ v, o = some v → Json.jsTruthy v = true → v.isStr = true

/-- C3 (amended): the mapping takes `reply.response` when truthy, else
`reply.text` when truthy, else `JSON.stringify` of the whole reply; the
delivered `response` field is therefore a string whenever the reply's
`response` and `text` fields are strings when truthy (in particular for
replies with neither field), and the error path always delivers the
static string — but a truthy non-string `response` passes through. -/
theorem claim_C3_amended :
    ∀ reply : Json,
      (∀ v, reply.getField "response" = some v → Json.jsTruthy v = true →
        Json.responseField reply = v) ∧
      (reply.getField "response" = none → reply.getField "text" = none →
        Json.responseField reply = .str (Json.stringify reply)) ∧
      (StrWhenTruthy (reply.getField "response") →
        StrWhenTruthy (reply.getField "text") →
        (Json.responseField reply).isStr = true) ∧
      (∀ e s, ServiceV3.agentEmission (.err e) =
          .next (errorAgentResponse "Agent is currently unavailable.") ∧
        (errorAgentResponse s).getField "response" = some (.str s)) := by
  intro reply
  refine ⟨?_, ?_, ?_, fun e s => ⟨rfl, rfl⟩⟩
  · intro v hv htrue
    simp only [Json.responseField, Json.jsOrElse, hv, htrue, if_true]
  · intro h1 h2
    simp only [Json.responseField, Json.jsOrElse, h1, h2]
  · intro hr ht
    simp only [Json.responseField, Json.jsOrElse]
    cases hgr : reply.getField "response" with
    | some v =>
      by_cases hv : Json.jsTruthy v = true
      · simpa [hv] using hr v hgr hv
      · simp only [Bool.not_eq_true] at hv
        simp only [hv, if_false]
        cases hgt : reply.getField "text" with
        | some w =>
          by_cases hw : Json.jsTruthy w = true
          · simpa [hw] using ht w hgt hw
          · simp only [Bool.not_eq_true] at hw
            simp [hw, Json.isStr]
        | none => simp [Json.isStr]
    | none =>
      cases hgt : reply.getField "text" with
      | some w =>
        by_cases hw : Json.jsTruthy w = true
        · simpa [hw] using ht w hgt hw
        · simp only [Bool.not_eq_true] at hw
          simp [hw, Json.isStr]
      | none => simp [Json.isStr]

/-- Witness for C3 (amended) at concrete replies. -/
theorem claim_C3_witness :
    Json.responseField (.obj [("response", .str "hi")]) = .str "hi" ∧
    Json.responseField (.obj [("ignored", .num 7)]) =
      .str "\x7b\"ignored\":7\x7d" ∧
    (Json.responseField (.obj [("text", .str "yo")])).isStr = true := by
  refine ⟨(claim_C3_amended (.obj [("response", .str "hi")])).1
      (.str "hi") rfl rfl,
    (claim_C3_amended (.obj [("ignored", .num 7)])).2.1 rfl rfl,
    (claim_C3_amended (.obj [("text", .str "yo")])).2.2.1
      (fun v hv _ => Option.noConfusion hv)
      (fun v hv _ => by cases hv; rfl)⟩

/-- C4 (counterexample): the frontend environment's assessment-agent
base URL targets port 5001 (the CORS proxy), not one of 8000–8003. -/
theorem claim_C4_counterexample :
    urlPort envProxy.assessmentAgent = some 5001 ∧
    ¬ (5001 ∈ ([8000, 8001, 8002, 8003] : List Nat)) := by decide

/-- C4 (amended): the earlier development environment addresses the four
agents on ports 8000–8003, one port per agent; the frontend environment
addresses all four through the CORS proxy on port 5001 under distinct
per-agent paths; and the backend startup script launches exactly four
Flask processes on ports 8000–8003. -/
theorem claim_C4_amended :
    [urlPort envDev.assessmentAgent, urlPort envDev.planningAgent,
     urlPort envDev.progressAgent, urlPort envDev.contentDeliveryAgent] =
      [some 8000, some 8001, some 8002, some 8003] ∧
    [urlPort envProxy.assessmentAgent, urlPort envProxy.planningAgent,
     urlPort envProxy.progressAgent,
     urlPort envProxy.contentDeliveryAgent] =
      [some 5001, some 5001, some 5001, some 5001] ∧
    ([envProxy.assessmentAgent, envProxy.planningAgent,
      envProxy.progressAgent, envProxy.contentDeliveryAgent] :
      List String).Pairwise (· ≠ ·) ∧
    runShProcesses.map Prod.snd = [8000, 8001, 8002, 8003] ∧
    runShProcesses.length = 4 := by decide

/-! ## Dashboard chat (`dashboard.ts`, `src/unnamed/part_007`)

The chat view model: `messages`, `userInput`, `userId`, `isLoading`
signals, the `canSendMessage` computed signal, and `sendMessage`, an
async handler split here into its synchronous prefix (up to the `await`)
and its continuation after the awaited promise settles. `inFlight`
counts chat requests started but not yet settled — the quantity the
concurrency claim is about. -/

namespace Dashboard

/-- One chat message of the dashboard view model. -/
structure ChatMsg where
  sender : String
  text : Json
  agentType : Option String

/-- The dashboard chat state (auth and tab state are orthogonal to the
claims and omitted). -/
structure DashState where
  messages : List ChatMsg
  userInput : String
  userId : Option String
  isLoading : Bool
  inFlight : Nat

/-- The initial signal values of the component. -/
def initState : DashState where
  messages :=
    [⟨"ai",
      .str "Welcome! How can I help you navigate your financial journey today?",
      none⟩]
  userInput := ""
  userId := none
  isLoading := false
  inFlight := 0

/-- The `canSendMessage` computed signal:
`userInput().trim().length > 0 && userId() !== undefined && !isLoading()`. -/
def canSendMessage (s : DashState) : Bool :=
  decide (0 < (jsTrim s.userInput).length) && s.userId.isSome && !s.isLoading

/-- The observable micro-steps of `sendMessage`, in program order. -/
inductive ChatEvent where
  | addMessage (m : ChatMsg)
  | clearInput
  | setLoading (b : Bool)
  | httpCall (userId message : String)

/-- Is the event the HTTP call to the assessment agent? -/
def ChatEvent.isHttpCall : ChatEvent → Bool
  | .httpCall _ _ => true
  | _ => false

/-- Is the event `isLoading.set(true)`? -/
def ChatEvent.isSetLoadingTrue : ChatEvent → Bool
  | .setLoading true => true
  | _ => false

/-- The synchronous prefix of `sendMessage`, up to the `await`: if the
trimmed input is empty or no user id is set it returns with no effect
and no request; otherwise it appends the user message, clears the input,
sets `isLoading` and starts the HTTP call. -/
def sendMessageStart (s : DashState) : DashState × List ChatEvent :=
  match s.userId with
  | none => (s, [])
  | some uid =>
    if jsTrim s.userInput = "" then (s, [])
    else
      ({ s with
          messages := s.messages ++ [⟨"user", .str (jsTrim s.userInput), none⟩],
          userInput := "",
          isLoading := true,
          inFlight := s.inFlight + 1 },
       [.addMessage ⟨"user", .str (jsTrim s.userInput), none⟩, .clearInput,
        .setLoading true, .httpCall uid (jsTrim s.userInput)])

/-- The continuation of `sendMessage` after the awaited promise settles:
the `try` branch appends the agent reply (`text: response.response`,
`agentType: 'assessment'`), the `catch` branch appends the static error
message (`agentType: 'error'`), and `finally` resets `isLoading`. -/
def sendMessageSettle (s : DashState) (r : Except Json Json) : DashState :=
  match r with
  | .ok resp =>
    { s with
        messages := s.messages ++
          [⟨"ai", (resp.getField "response").getD .null, some "assessment"⟩],
        isLoading := false,
        inFlight := s.inFlight - 1 }
  | .error _ =>
    { s with
        messages := s.messages ++
          [⟨"ai", .str "Sorry, I encountered an error. Please try again.",
            some "error"⟩],
        isLoading := false,
        inFlight := s.inFlight - 1 }

/-- The wrapper `new Promise((resolve, reject) => observable.subscribe({ next:
resolve, error: reject }))`: a next emission resolves, an error rejects. -/
def promiseOfEmission : Emission → Except Json Json
  | .next v => .ok v
  | .error e => .error e

/-- The dashboard transitions: the user typing, Auth0 delivering a user
id, the send button being clicked (enabled only while `canSendMessage`,
to which the template binds the button's disabled state), and an
in-flight call settling. -/
inductive DashStep : DashState → DashState → Prop
  | typeInput (s : DashState) (t : String) :
      DashStep s { s with userInput := t }
  | login (s : DashState) (uid : String) :
      DashStep s { s with userId := some uid }
  | clickSend (s : DashState) (h : canSendMessage s = true) :
      DashStep s (sendMessageStart s).1
  | settle (s : DashState) (r : Except Json Json) (h : 0 < s.inFlight) :
      DashStep s (sendMessageSettle s r)

/-- States reachable from the initial dashboard state. -/
inductive DashReachable : DashState → Prop
  | init : DashReachable initState
  | step {s s2 : DashState} :
      DashReachable s → DashStep s s2 → DashReachable s2

/-- The single-flight invariant: at most one chat request is in flight,
and an in-flight request forces `isLoading`. -/
def ChatInv (s : DashState) : Prop :=
  s.inFlight ≤ 1 ∧ (0 < s.inFlight → s.isLoading = true)

/-- Unpacking `canSendMessage`. -/
theorem canSend_elim {s : DashState} (h : canSendMessage s = true) :
    (∃ uid, s.userId = some uid) ∧ jsTrim s.userInput ≠ "" ∧
      s.isLoading = false := by
  simp only [canSendMessage, Bool.and_eq_true, Bool.not_eq_true',
    decide_eq_true_eq, Option.isSome_iff_exists] at h
  obtain ⟨⟨hlen, ⟨uid, huid⟩⟩, hload⟩ := h
  refine ⟨⟨uid, huid⟩, ?_, hload⟩
  intro hempty
  rw [hempty] at hlen
  exact Nat.lt_irrefl 0 hlen

/-- Evaluating `sendMessageStart` under an enabled guard. -/
theorem sendMessageStart_enabled {s : DashState}
    (h : canSendMessage s = true) :
    (sendMessageStart s).1.isLoading = true ∧
    (sendMessageStart s).1.inFlight = s.inFlight + 1 := by
  obtain ⟨⟨uid, huid⟩, hne, _⟩ := canSend_elim h
  simp [sendMessageStart, huid, hne]

/-- The single-flight invariant holds in every reachable state. -/
theorem chatInv_reachable {s : DashState} (h : DashReachable s) :
    ChatInv s := by
  induction h with
  | init => exact ⟨Nat.zero_le 1, fun h0 => absurd h0 (by simp [initState])⟩
  | step hr hs ih =>
    rename_i s s2
    cases hs with
    | typeInput t => exact ih
    | login uid => exact ih
    | clickSend hcan =>
      obtain ⟨hload, hcount⟩ := sendMessageStart_enabled hcan
      obtain ⟨_, _, hnl⟩ := canSend_elim hcan
      have h0 : s.inFlight = 0 := by
        rcases Nat.eq_zero_or_pos s.inFlight with h | h
        · exact h
        · exact absurd (ih.2 h) (by simp [hnl])
      constructor
      · rw [hcount, h0]
      · intro _
        exact hload
    | settle r hpos =>
      have h1 : s.inFlight = 1 := Nat.le_antisymm ih.1 hpos
      constructor
      · cases r <;> simp [sendMessageSettle, h1]
      · intro hgt
        cases r <;> simp [sendMessageSettle, h1] at hgt
end Dashboard

/-- C5: the dashboard keeps at most one chat request in flight:
`isLoading` makes `canSendMessage` false; in every reachable state at
most one request is in flight and while one is, the send guard is
disabled; `sendMessage` returns without any request when the trimmed
input is empty or no user id is set; within one send, `isLoading` is set
true before the HTTP call, exactly one call is started, and settling
resets `isLoading` to false. -/
theorem claim_C5 :
    (∀ s : Dashboard.DashState, s.isLoading = true →
      Dashboard.canSendMessage s = false) ∧
    (∀ s : Dashboard.DashState, Dashboard.DashReachable s →
      s.inFlight ≤ 1) ∧
    (∀ s : Dashboard.DashState, Dashboard.DashReachable s →
      0 < s.inFlight → Dashboard.canSendMessage s = false) ∧
    (∀ s : Dashboard.DashState,
      jsTrim s.userInput = "" ∨ s.userId = none →
      Dashboard.sendMessageStart s = (s, [])) ∧
    (∀ s : Dashboard.DashState, Dashboard.canSendMessage s = true →
      ((Dashboard.sendMessageStart s).2.takeWhile
          (fun e => ! e.isHttpCall)).any
        Dashboard.ChatEvent.isSetLoadingTrue = true ∧
      (Dashboard.sendMessageStart s).2.countP
        (fun e => e.isHttpCall) = 1) ∧
    (∀ (s : Dashboard.DashState) (r : Except Json Json),
      (Dashboard.sendMessageSettle s r).isLoading = false) := by
  refine ⟨?_, ?_, ?_, ?_, ?_, ?_⟩
  · intro s h
    simp [Dashboard.canSendMessage, h]
  · intro s hr
    exact (Dashboard.chatInv_reachable hr).1
  · intro s hr hpos
    have hload := (Dashboard.chatInv_reachable hr).2 hpos
    simp [Dashboard.canSendMessage, hload]
  · rintro s (h | h)
    · cases huid : s.userId <;> simp [Dashboard.sendMessageStart, huid, h]
    · simp [Dashboard.sendMessageStart, h]
  · intro s hcan
    obtain ⟨⟨uid, huid⟩, hne, _⟩ := Dashboard.canSend_elim hcan
    constructor
    · simp [Dashboard.sendMessageStart, huid, hne, List.takeWhile,
        Dashboard.ChatEvent.isHttpCall, Dashboard.ChatEvent.isSetLoadingTrue]
    · simp [Dashboard.sendMessageStart, huid, hne,
        Dashboard.ChatEvent.isHttpCall]
  · intro s r
    cases r <;> rfl

/-- Witness for C5 at a concrete reachable state with one call in
flight: the guard is disabled there, and the empty-input guard returns
without a request. -/
theorem claim_C5_witness :
    Dashboard.canSendMessage
      ((Dashboard.sendMessageStart
        { Dashboard.initState with
            userId := some "auth0|user1", userInput := "hi" }).1) = false ∧
    Dashboard.sendMessageStart
      { Dashboard.initState with userId := some "auth0|user1" } =
      ({ Dashboard.initState with userId := some "auth0|user1" }, []) := by
  constructor
  · exact claim_C5.2.2.1 _
      (Dashboard.DashReachable.step
        (Dashboard.DashReachable.step
          (Dashboard.DashReachable.step Dashboard.DashReachable.init
            (Dashboard.DashStep.login _ "auth0|user1"))
          (Dashboard.DashStep.typeInput _ "hi"))
        (Dashboard.DashStep.clickSend _ (by decide)))
      (by decide)
  · exact claim_C5.2.2.2.1 _ (Or.inl (by decide))

/-- C10: every service pipeline ends in `catchError`, so the observable
emits `next` for every HTTP outcome; the promise wrapper therefore
always resolves, and the `catch` branch of `Dashboard.sendMessage` (the
"Sorry, I encountered an error" chat message with `agentType: 'error'`)
is unreachable: settling always appends a message with
`agentType: 'assessment'`. -/
theorem claim_C10 :
    (∀ t outcome, ∃ v, ServiceV1.emission t outcome = .next v) ∧
    (∀ t outcome, ∃ v, ServiceV2.emission t outcome = .next v) ∧
    (∀ outcome, ∃ v, ServiceV3.assessEmission outcome = .next v) ∧
    (∀ outcome, ∃ v, ServiceV3.agentEmission outcome = .next v) ∧
    (∀ t outcome, ∃ v,
      Dashboard.promiseOfEmission (ServiceV1.emission t outcome) = .ok v) ∧
    (∀ (s : Dashboard.DashState) (t : AgentType) (outcome : HttpOutcome),
      ∃ m, (Dashboard.sendMessageSettle s
          (Dashboard.promiseOfEmission (ServiceV1.emission t outcome))).messages
          = s.messages ++ [m] ∧ m.agentType = some "assessment") := by
  refine ⟨fun t outcome => ?_, fun t outcome => ?_, fun outcome => ?_,
    fun outcome => ?_, fun t outcome => ?_, fun s t outcome => ?_⟩
  · cases outcome <;> exact ⟨_, rfl⟩
  · cases outcome <;> exact ⟨_, rfl⟩
  · cases outcome <;> exact ⟨_, rfl⟩
  · cases outcome <;> exact ⟨_, rfl⟩
  · cases outcome <;> exact ⟨_, rfl⟩
  · cases outcome <;> exact ⟨_, rfl, rfl⟩

/-! ## Learning page, content-loading sequence
(`src/frontend/src/app/learning-page/learning-page.ts`) -/

namespace LearningPage

/-- One agent request issued by the learning page, tagged by agent. -/
inductive AgentCall where
  | assess (userId message : String)
  | planning (userId message : String)
  | progress (userId message : String)
  | content (userId message : String)

/-- Method `loadModuleContent`: one awaited content-agent request; parse
failures are caught internally (a default error module is set), so the
method itself never throws and always issues exactly this request. -/
def loadModuleContent (uid : String) (moduleNumber : Nat) :
    List AgentCall :=
  [.content uid ("Get module content for user_id: " ++ uid ++
    ", module_number: " ++ toString moduleNumber ++ ".")]

/-- Method `loadLessonStep`: one awaited content-agent request (internal
try/catch as above). -/
def loadLessonStep (uid : String) (moduleNumber stepNumber : Nat) :
    List AgentCall :=
  [.content uid ("Get lesson step for user_id: " ++ uid ++
    ", module_number: " ++ toString moduleNumber ++
    ", step_number: " ++ toString stepNumber ++ ".")]

/-- Method `loadQuizQuestions`: one awaited content-agent request (internal
try/catch as above). -/
def loadQuizQuestions (uid : String) (moduleNumber : Nat) :
    List AgentCall :=
  [.content uid ("Get quiz questions for user_id: " ++ uid ++
    ", module_number: " ++ toString moduleNumber ++ ".")]

/-- The observable outcome of one `loadLearningContent` run. -/
structure LoadOutcome where
  calls : List AgentCall
  isLoading : Bool
  assessmentIncomplete : Bool

/-- Method `loadLearningContent`. `checkResult` stands for the awaited
`checkAssessmentStatus()` value (`Except.error` is the outer-catch case
should it throw); `contentLoaded` stands for the truthiness of
`currentStep() && currentModule()` after the fallback loads. Records the
content-agent calls in program order and the final `isLoading` /
`assessmentIncomplete` signal values. -/
def loadLearningContent (uid : Option String)
    (checkResult : Except Json Bool) (moduleNumber stepNumber : Nat)
    (contentLoaded : Bool) (incomplete0 load0 : Bool) : LoadOutcome :=
  match uid with
  | none =>
    { calls := [], isLoading := load0, assessmentIncomplete := incomplete0 }
  | some u =>
    match checkResult with
    | .ok true =>
      { calls := loadModuleContent u moduleNumber ++
          loadLessonStep u moduleNumber stepNumber ++
          loadQuizQuestions u moduleNumber,
        isLoading := false,
        assessmentIncomplete := false }
    | .ok false =>
      { calls := loadModuleContent u moduleNumber ++
          loadLessonStep u moduleNumber stepNumber ++
          loadQuizQuestions u moduleNumber,
        isLoading := false,
        assessmentIncomplete := !contentLoaded }
    | .error _ =>
      { calls := [], isLoading := false, assessmentIncomplete := true }

end LearningPage

/-- C6: when the learning page loads content for a user whose assessment
is judged complete, it issues the three awaited content-agent requests
strictly in order (module content, then lesson step, then quiz), leaves
`assessmentIncomplete` false, and resets `isLoading` to false — and
`isLoading` ends false for every outcome of the check, including the
fallback and failure paths. -/
theorem claim_C6 :
    ∀ (u : String) (m st : Nat) (checkResult : Except Json Bool)
      (contentLoaded inc0 load0 : Bool),
      (LearningPage.loadLearningContent (some u) (.ok true) m st
          contentLoaded inc0 load0).calls =
        [.content u ("Get module content for user_id: " ++ u ++
            ", module_number: " ++ toString m ++ "."),
         .content u ("Get lesson step for user_id: " ++ u ++
            ", module_number: " ++ toString m ++
            ", step_number: " ++ toString st ++ "."),
         .content u ("Get quiz questions for user_id: " ++ u ++
            ", module_number: " ++ toString m ++ ".")] ∧
      (LearningPage.loadLearningContent (some u) (.ok true) m st
          contentLoaded inc0 load0).assessmentIncomplete = false ∧
      (LearningPage.loadLearningContent (some u) checkResult m st
          contentLoaded inc0 load0).isLoading = false := by
  intro u m st checkResult contentLoaded inc0 load0
  refine ⟨rfl, rfl, ?_⟩
  rcases checkResult with e | b
  · rfl
  · cases b <;> rfl

/-! ## Learning page, complete-learning-state handoff check
(the `5d27834` revision of `loadCompleteLearningState`, in
`src/frontend/src/environments/environment.ts`) -/

namespace LearningPageV2

/-- The handoff-check message sent to the progress agent. -/
def handoffMessage (uid : String) : String :=
  "Check if planning handoff exists for user_id: " ++ uid ++
    ". Use get_planning_handoff tool."

/-- The learning-state message sent to the progress agent. -/
def stateMessage (uid : String) : String :=
  "Get complete learning state for user_id: " ++ uid ++
    ". Use get_current_learning_state tool."

/-- Result of `parseLearningStateResponse`, abstracted to the two fields
the control flow reads: `status`, and whether `data` is `null`. -/
structure ParsedState where
  status : String
  dataIsNull : Bool

/-- The observable outcome of one `loadCompleteLearningState` run. -/
structure StateOutcome where
  calls : List String
  assessmentIncomplete : Bool
  isLoading : Bool

/-- Method `loadCompleteLearningState`: checks the planning handoff via the
progress agent; when the reply contains "No learning path handoff found"
it marks the assessment incomplete and returns (the `finally` still
resets `isLoading`); otherwise it requests the complete learning state
and branches on the parsed status. `parsed` stands for
`parseLearningStateResponse(response.response)`; an unusable parse
throws and lands in the catch, which also marks incomplete. -/
def loadCompleteLearningState (uid : Option String)
    (handoffReply : String) (parsed : Option ParsedState)
    (incomplete0 load0 : Bool) : StateOutcome :=
  match uid with
  | none =>
    { calls := [], assessmentIncomplete := incomplete0, isLoading := load0 }
  | some u =>
    if jsIncludes handoffReply "No learning path handoff found" then
      { calls := [handoffMessage u], assessmentIncomplete := true,
        isLoading := false }
    else
      match parsed with
      | some p =>
        if p.status = "success" then
          { calls := [handoffMessage u, stateMessage u],
            assessmentIncomplete := false, isLoading := false }
        else
          { calls := [handoffMessage u, stateMessage u],
            assessmentIncomplete := true, isLoading := false }
      | none =>
        { calls := [handoffMessage u, stateMessage u],
          assessmentIncomplete := true, isLoading := false }

end LearningPageV2

/-- C7: the agent-handoff check is pure substring matching on the
progress agent's reply: a reply containing "No learning path handoff
found" makes `loadCompleteLearningState` set `assessmentIncomplete` and
return after the single handoff request; any reply not containing that
substring leads to exactly the follow-up learning-state request. -/
theorem claim_C7 :
    ∀ (u handoffReply : String) (parsed : Option LearningPageV2.ParsedState)
      (inc0 load0 : Bool),
      (jsIncludes handoffReply "No learning path handoff found" = true →
        LearningPageV2.loadCompleteLearningState (some u) handoffReply
            parsed inc0 load0 =
          { calls := [LearningPageV2.handoffMessage u],
            assessmentIncomplete := true, isLoading := false }) ∧
      (jsIncludes handoffReply "No learning path handoff found" = false →
        (LearningPageV2.loadCompleteLearningState (some u) handoffReply
            parsed inc0 load0).calls =
          [LearningPageV2.handoffMessage u,
           LearningPageV2.stateMessage u]) := by
  intro u reply parsed inc0 load0
  constructor
  · intro h
    simp [LearningPageV2.loadCompleteLearningState, h]
  · intro h
    cases parsed with
    | none => simp [LearningPageV2.loadCompleteLearningState, h]
    | some p =>
      by_cases hs : p.status = "success" <;>
        simp [LearningPageV2.loadCompleteLearningState, h, hs]

/-- Witness for C7: a reply containing the handoff-missing marker stops
after one request; a reply without it leads to the follow-up request. -/
theorem claim_C7_witness :
    LearningPageV2.loadCompleteLearningState (some "u1")
        "No learning path handoff found for this user" none true false =
      { calls := [LearningPageV2.handoffMessage "u1"],
        assessmentIncomplete := true, isLoading := false } ∧
    (LearningPageV2.loadCompleteLearningState (some "u1")
        "Handoff complete: learning path ready"
        (some ⟨"success", false⟩) true false).calls =
      [LearningPageV2.handoffMessage "u1",
       LearningPageV2.stateMessage "u1"] := by
  constructor
  · exact (claim_C7 "u1" "No learning path handoff found for this user"
      none true false).1 (by decide)
  · exact (claim_C7 "u1" "Handoff complete: learning path ready"
      (some ⟨"success", false⟩) true false).2 (by decide)

/-! ## Trading simulator, frontend revision
(`src/frontend/src/app/digital-financial-literacy/digital-financial-literacy.ts`)

`buyStock` / `sellStock` over the `cashBalance` and `portfolio` signals.
Money and share quantities are JavaScript numbers, modelled as `ℚ`. -/

namespace Trading

/-- A stock quote (the fields the trading logic reads). -/
structure StockQuote where
  symbol : String
  price : ℚ

/-- A portfolio holding. -/
structure Holding where
  symbol : String
  quantity : ℚ
  averagePrice : ℚ

/-- The simulator state. -/
structure SimState where
  cashBalance : ℚ
  portfolio : List Holding

/-- The initial state: `$10,000` cash, empty portfolio. -/
def initSim : SimState := ⟨10000, []⟩

/-- The `portfolio.update` of `buyStock`: the first holding with the
stock's symbol is grown in place (with recomputed average price), or a
new holding is pushed at the end. -/
def addHolding (sym : String) (q price cost : ℚ) :
    List Holding → List Holding
  | [] => [⟨sym, q, price⟩]
  | h :: rest =>
    if h.symbol = sym then
      ⟨h.symbol, h.quantity + q,
        (h.averagePrice * h.quantity + cost) / (h.quantity + q)⟩ :: rest
    else h :: addHolding sym q price cost rest

/-- Method `buyStock`: returns unless a stock is selected and the quantity is
positive; rejects (alert, no state change) when the cost exceeds the
cash balance; otherwise debits the cash and grows the portfolio. -/
def buyStock (s : SimState) (selectedStock : Option StockQuote)
    (buyQuantity : Option ℚ) : SimState :=
  match selectedStock, buyQuantity with
  | some stock, some q =>
    if q ≤ 0 then s
    else if s.cashBalance < stock.price * q then s
    else
      { cashBalance := s.cashBalance - stock.price * q,
        portfolio := addHolding stock.symbol q stock.price
          (stock.price * q) s.portfolio }
  | _, _ => s

/-- The in-place `holding.quantity -= quantity` of `sellStock`, applied
to the first holding carrying the symbol. -/
def decHolding (sym : String) (q : ℚ) : List Holding → List Holding
  | [] => []
  | h :: rest =>
    if h.symbol = sym then
      ⟨h.symbol, h.quantity - q, h.averagePrice⟩ :: rest
    else h :: decHolding sym q rest

/-- Method `sellStock`: returns unless a stock is selected, the quantity is
positive and a holding with the symbol exists; rejects when more shares
than held are sold; otherwise credits the cash, decrements the holding
and, when its quantity reaches zero, filters it out of the portfolio. -/
def sellStock (s : SimState) (selectedStock : Option StockQuote)
    (sellQuantity : Option ℚ) : SimState :=
  match selectedStock, sellQuantity with
  | some stock, some q =>
    match s.portfolio.find? (fun h => h.symbol == stock.symbol) with
    | none => s
    | some holding =>
      if q ≤ 0 then s
      else if holding.quantity < q then s
      else
        { cashBalance := s.cashBalance + stock.price * q,
          portfolio :=
            if holding.quantity - q = 0 then
              (decHolding stock.symbol q s.portfolio).filter
                (fun h => h.symbol != stock.symbol)
            else decHolding stock.symbol q s.portfolio }
  | _, _ => s

/-- The invariant: non-negative cash, strictly positive holdings. -/
def SimInv (s : SimState) : Prop :=
  0 ≤ s.cashBalance ∧ ∀ h ∈ s.portfolio, 0 < h.quantity

/-- Every holding produced by `addHolding` with a positive bought
quantity has positive quantity. -/
theorem addHolding_pos {sym : String} {q price cost : ℚ} (hq : 0 < q) :
    ∀ l : List Holding, (∀ h ∈ l, 0 < h.quantity) →
      ∀ x ∈ addHolding sym q price cost l, 0 < x.quantity := by
  intro l
  induction l with
  | nil =>
    intro _ x hx
    simp only [addHolding, List.mem_singleton] at hx
    rw [hx]
    exact hq
  | cons h rest ih =>
    intro hinv x hx
    by_cases hsym : h.symbol = sym
    · simp only [addHolding, if_pos hsym, List.mem_cons] at hx
      rcases hx with hx | hx
      · rw [hx]
        exact add_pos (hinv h (List.mem_cons_self h rest)) hq
      · exact hinv x (List.mem_cons_of_mem h hx)
    · simp only [addHolding, if_neg hsym, List.mem_cons] at hx
      rcases hx with hx | hx
      · rw [hx]
        exact hinv h (List.mem_cons_self h rest)
      · exact ih (fun y hy => hinv y (List.mem_cons_of_mem h hy)) x hx

/-- A holding of `decHolding` whose symbol is not the sold one occurs
unchanged in the original list. -/
theorem decHolding_mem_ne {sym : String} {q : ℚ} :
    ∀ {l : List Holding} {x : Holding}, x ∈ decHolding sym q l →
      x.symbol ≠ sym → x ∈ l := by
  intro l
  induction l with
  | nil => intro x hx _; simp [decHolding] at hx
  | cons h rest ih =>
    intro x hx hne
    by_cases hsym : h.symbol = sym
    · simp only [decHolding, if_pos hsym, List.mem_cons] at hx
      rcases hx with hx | hx
      · exact absurd (by rw [hx]; exact hsym) hne
      · exact List.mem_cons_of_mem h hx
    · simp only [decHolding, if_neg hsym, List.mem_cons] at hx
      rcases hx with hx | hx
      · rw [hx]; exact List.mem_cons_self h rest
      · exact List.mem_cons_of_mem h (ih hx hne)

/-- After selling `q ≤ holding.quantity` shares (not all of them) of the
first holding found for the symbol, every holding stays positive. -/
theorem decHolding_pos {sym : String} {q : ℚ} {h0 : Holding} :
    ∀ {l : List Holding},
      l.find? (fun h => h.symbol == sym) = some h0 →
      (∀ h ∈ l, 0 < h.quantity) → q ≤ h0.quantity →
      h0.quantity - q ≠ 0 →
      ∀ x ∈ decHolding sym q l, 0 < x.quantity := by
  intro l
  induction l with
  | nil => intro hfind; simp at hfind
  | cons h rest ih =>
    intro hfind hinv hle hne x hx
    by_cases hsym : h.symbol = sym
    · rw [List.find?_cons_of_pos _ (by simp [hsym])] at hfind
      injection hfind with hfind
      simp only [decHolding, if_pos hsym, List.mem_cons] at hx
      rcases hx with hx | hx
      · rw [hx]
        subst hfind
        rcases lt_or_eq_of_le hle with hlt | heq
        · simpa using sub_pos.mpr hlt
        · exact absurd (by rw [← heq]; ring) hne
      · exact hinv x (List.mem_cons_of_mem h hx)
    · rw [List.find?_cons_of_neg _ (by simp [hsym])] at hfind
      simp only [decHolding, if_neg hsym, List.mem_cons] at hx
      rcases hx with hx | hx
      · rw [hx]
        exact hinv h (List.mem_cons_self h rest)
      · exact ih hfind (fun y hy => hinv y (List.mem_cons_of_mem h hy))
          hle hne x hx

end Trading

/-! ## Trading simulator, digital-literacy-app revision
(`src/digital-literacy-app/src/app/digital-financial-literacy/digital-financial-literacy.ts`)

`executeTrade` over the `portfolio` object (`cash: 8347.50`, `holdings`
as a symbol-to-shares map). -/

namespace TradingV1

/-- The portfolio object (a JS map keeps insertion order; a new key is
appended). -/
structure Portfolio where
  cash : ℚ
  holdings : List (String × ℚ)

/-- The component's initial portfolio literal. -/
def initPortfolio : Portfolio := ⟨16695 / 2, []⟩

/-- JavaScript `holdings[symbol] = (holdings[symbol] || 0) + quantity`. -/
def bumpHolding (sym : String) (q : ℚ) :
    List (String × ℚ) → List (String × ℚ)
  | [] => [(sym, q)]
  | (k, v) :: rest =>
    if k = sym then (k, v + q) :: rest
    else (k, v) :: bumpHolding sym q rest

/-- Method `executeTrade` for the current trade `{ symbol, price, quantity }`:
the only guard is `totalCost > cash` (there is no check that the
quantity is positive). -/
def executeTrade (p : Portfolio) (symbol : String) (price quantity : ℚ) :
    Portfolio :=
  if p.cash < quantity * price then p
  else
    { cash := p.cash - quantity * price,
      holdings := bumpHolding symbol quantity p.holdings }

/-- The invariant: non-negative cash, strictly positive share counts. -/
def PortInv (p : Portfolio) : Prop :=
  0 ≤ p.cash ∧ ∀ e ∈ p.holdings, 0 < e.2

/-- Every entry produced by `bumpHolding` with a positive bought
quantity is positive. -/
theorem bumpHolding_pos {sym : String} {q : ℚ} (hq : 0 < q) :
    ∀ l : List (String × ℚ), (∀ e ∈ l, 0 < e.2) →
      ∀ x ∈ bumpHolding sym q l, 0 < x.2 := by
  intro l
  induction l with
  | nil =>
    intro _ x hx
    simp only [bumpHolding, List.mem_singleton] at hx
    rw [hx]
    exact hq
  | cons e rest ih =>
    intro hinv x hx
    obtain ⟨k, v⟩ := e
    by_cases hsym : k = sym
    · simp only [bumpHolding, if_pos hsym, List.mem_cons] at hx
      rcases hx with hx | hx
      · rw [hx]
        exact add_pos (hinv (k, v) (List.mem_cons_self _ rest)) hq
      · exact hinv x (List.mem_cons_of_mem _ hx)
    · simp only [bumpHolding, if_neg hsym, List.mem_cons] at hx
      rcases hx with hx | hx
      · rw [hx]
        exact hinv (k, v) (List.mem_cons_self _ rest)
      · exact ih (fun y hy => hinv y (List.mem_cons_of_mem _ hy)) x hx

end TradingV1

/-- C8 (counterexample): `executeTrade` has no positive-quantity guard:
from the initial portfolio (which satisfies the invariant), a trade of
quantity −1 at the VTI price 230.45 passes the cost check (its cost is
negative) and creates a holding of −1 shares, breaking the
strictly-positive-holdings invariant. -/
theorem claim_C8_counterexample :
    TradingV1.PortInv TradingV1.initPortfolio ∧
    (TradingV1.executeTrade TradingV1.initPortfolio "VTI"
        (4609 / 20) (-1)).holdings = [("VTI", -1)] ∧
    ¬ TradingV1.PortInv
      (TradingV1.executeTrade TradingV1.initPortfolio "VTI"
        (4609 / 20) (-1)) := by
  have hred : TradingV1.executeTrade TradingV1.initPortfolio "VTI"
      (4609 / 20) (-1) =
      ⟨16695 / 2 - (-1) * (4609 / 20), [("VTI", -1)]⟩ := by
    rw [TradingV1.executeTrade, if_neg (by norm_num [TradingV1.initPortfolio])]
    rfl
  refine ⟨⟨by norm_num [TradingV1.initPortfolio], ?_⟩, ?_, ?_⟩
  · intro e he
    simp [TradingV1.initPortfolio] at he
  · rw [hred]
  · intro h
    have := h.2 ("VTI", -1) (by rw [hred]; exact List.mem_singleton.mpr rfl)
    norm_num at this

/-- C8 (amended): from states satisfying the invariant (non-negative
cash, strictly positive holdings — which the initial states do),
`buyStock` and `sellStock` preserve it (selling at the quoted
non-negative price); a buy whose cost exceeds the cash, and a sell of
more shares than held, leave the state completely unchanged; a sell
that zeroes a holding removes every holding of that symbol; and
`executeTrade` preserves the invariant provided the trade quantity is
positive (and likewise leaves the state unchanged when the cost exceeds
the cash). -/
theorem claim_C8_amended :
    Trading.SimInv Trading.initSim ∧
    TradingV1.PortInv TradingV1.initPortfolio ∧
    (∀ (s : Trading.SimState) (stock : Trading.StockQuote) (q : ℚ),
      Trading.SimInv s → Trading.SimInv (Trading.buyStock s (some stock) (some q))) ∧
    (∀ (s : Trading.SimState) (stock : Trading.StockQuote) (q : ℚ),
      Trading.SimInv s → 0 ≤ stock.price →
      Trading.SimInv (Trading.sellStock s (some stock) (some q))) ∧
    (∀ (s : Trading.SimState) (stock : Trading.StockQuote) (q : ℚ),
      0 < q → s.cashBalance < stock.price * q →
      Trading.buyStock s (some stock) (some q) = s) ∧
    (∀ (s : Trading.SimState) (stock : Trading.StockQuote) (q : ℚ)
      (h0 : Trading.Holding),
      s.portfolio.find? (fun h => h.symbol == stock.symbol) = some h0 →
      h0.quantity < q →
      Trading.sellStock s (some stock) (some q) = s) ∧
    (∀ (s : Trading.SimState) (stock : Trading.StockQuote) (q : ℚ)
      (h0 : Trading.Holding),
      s.portfolio.find? (fun h => h.symbol == stock.symbol) = some h0 →
      0 < q → h0.quantity = q →
      ∀ x ∈ (Trading.sellStock s (some stock) (some q)).portfolio,
        x.symbol ≠ stock.symbol) ∧
    (∀ (p : TradingV1.Portfolio) (sym : String) (price q : ℚ),
      TradingV1.PortInv p → 0 < q →
      TradingV1.PortInv (TradingV1.executeTrade p sym price q)) ∧
    (∀ (p : TradingV1.Portfolio) (sym : String) (price q : ℚ),
      p.cash < q * price → TradingV1.executeTrade p sym price q = p) := by
  refine ⟨⟨by norm_num [Trading.initSim], by simp [Trading.initSim]⟩,
    ⟨by norm_num [TradingV1.initPortfolio], by simp [TradingV1.initPortfolio]⟩,
    ?_, ?_, ?_, ?_, ?_, ?_, ?_⟩
  · -- buyStock preserves the invariant
    intro s stock q hinv
    by_cases hq : q ≤ 0
    · simpa [Trading.buyStock, hq] using hinv
    · by_cases hcash : s.cashBalance < stock.price * q
      · simpa [Trading.buyStock, hq, hcash] using hinv
      · push_neg at hq hcash
        simp only [Trading.buyStock, if_neg (not_le.mpr hq), if_neg (not_lt.mpr hcash)]
        exact ⟨sub_nonneg.mpr hcash,
          Trading.addHolding_pos hq s.portfolio hinv.2⟩
  · -- sellStock preserves the invariant
    intro s stock q hinv hprice
    rcases hfind : s.portfolio.find? (fun h => h.symbol == stock.symbol) with
      _ | ⟨h0⟩
    · simpa [Trading.sellStock, hfind] using hinv
    · by_cases hq : q ≤ 0
      · simpa [Trading.sellStock, hfind, hq] using hinv
      · by_cases hheld : h0.quantity < q
        · simpa [Trading.sellStock, hfind, hq, hheld] using hinv
        · push_neg at hq hheld
          have hcash : 0 ≤ s.cashBalance + stock.price * q :=
            add_nonneg hinv.1 (mul_nonneg hprice hq.le)
          by_cases hzero : h0.quantity - q = 0
          · simp only [Trading.sellStock, hfind, if_neg (not_le.mpr hq),
              if_neg (not_lt.mpr hheld), if_pos hzero]
            refine ⟨hcash, ?_⟩
            intro x hx
            rw [List.mem_filter] at hx
            exact hinv.2 x (Trading.decHolding_mem_ne hx.1
              (by simpa using hx.2))
          · simp only [Trading.sellStock, hfind, if_neg (not_le.mpr hq),
              if_neg (not_lt.mpr hheld), if_neg hzero]
            exact ⟨hcash,
              Trading.decHolding_pos hfind hinv.2 hheld hzero⟩
  · -- a too-expensive buy is a no-op
    intro s stock q hq hcash
    simp [Trading.buyStock, not_le.mpr hq, hcash]
  · -- selling more than held is a no-op
    intro s stock q h0 hfind hheld
    by_cases hq : q ≤ 0
    · simp [Trading.sellStock, hfind, hq]
    · simp [Trading.sellStock, hfind, hq, hheld]
  · -- selling the whole holding removes the symbol
    intro s stock q h0 hfind hq hall x hx
    have hzero : h0.quantity - q = 0 := by rw [hall]; ring
    simp only [Trading.sellStock, hfind, if_neg (not_le.mpr hq),
      if_neg (not_lt.mpr hall.ge), if_pos hzero] at hx
    rw [List.mem_filter] at hx
    simpa using hx.2
  · -- executeTrade with a positive quantity preserves the invariant
    intro p sym price q hinv hq
    by_cases hcash : p.cash < q * price
    · simpa [TradingV1.executeTrade, hcash] using hinv
    · push_neg at hcash
      simp only [TradingV1.executeTrade, if_neg (not_lt.mpr hcash)]
      exact ⟨sub_nonneg.mpr hcash,
        TradingV1.bumpHolding_pos hq p.holdings hinv.2⟩
  · -- a too-expensive executeTrade is a no-op
    intro p sym price q hcash
    simp [TradingV1.executeTrade, hcash]

/-- Witness for C8 (amended): a concrete buy, sell and trade at positive
prices and quantities, with every hypothesis discharged. -/
theorem claim_C8_witness :
    Trading.SimInv (Trading.buyStock Trading.initSim
      (some ⟨"AAPL", 689 / 4⟩) (some 3)) ∧
    Trading.SimInv (Trading.sellStock
      ⟨100, [⟨"AAPL", 3, 689 / 4⟩]⟩ (some ⟨"AAPL", 172⟩) (some 3)) ∧
    TradingV1.PortInv (TradingV1.executeTrade TradingV1.initPortfolio
      "VTI" (4609 / 20) 3) := by
  refine ⟨claim_C8_amended.2.2.1 Trading.initSim ⟨"AAPL", 689 / 4⟩ 3
      ⟨by norm_num [Trading.initSim], by simp [Trading.initSim]⟩,
    claim_C8_amended.2.2.2.1 ⟨100, [⟨"AAPL", 3, 689 / 4⟩]⟩
      ⟨"AAPL", 172⟩ 3 ⟨by norm_num, ?_⟩ (by norm_num),
    claim_C8_amended.2.2.2.2.2.2.2.1 TradingV1.initPortfolio "VTI"
      (4609 / 20) 3
      ⟨by norm_num [TradingV1.initPortfolio],
       by simp [TradingV1.initPortfolio]⟩ (by norm_num)⟩
  intro h hh
  simp only [List.mem_singleton] at hh
  rw [hh]
  norm_num

/-! ## Quiz parsing (the regex revision of `parseQuizQuestions` in
`src/frontend/src/app/learning-page/learning-page.ts`)

A character-level embedding of the regex pipeline: three clean-up
`replace`s, the split on `(?:Question \d+[:.]?\s*|\d+\.\s*)/i`, and the
per-block option scraping. Lazy `.*?` scans advance one position at a
time (and cannot cross a newline, as `.` does not match one); greedy
`\d+`/`\s*` classes are disjoint from what follows them, so no
backtracking arises. -/

namespace Quiz

/-- Case-insensitive literal match at the head of `cs`; returns the
remainder after the pattern. -/
def matchCI : List Char → List Char → Option (List Char)
  | cs, [] => some cs
  | [], _ :: _ => none
  | c :: rest, p :: prest =>
    if c.toLower = p.toLower then matchCI rest prest else none

/-- Greedy `\d+` at the head; the remainder after the digits. -/
def matchDigits1 : List Char → Option (List Char)
  | [] => none
  | c :: rest =>
    if c.isDigit then some (rest.dropWhile Char.isDigit) else none

/-- Optionally consume one character from `set` (a `[..]?` class). -/
def dropOneOf (set : List Char) : List Char → List Char
  | [] => []
  | c :: rest => if c ∈ set then rest else c :: rest

/-- Pattern `Question \d+[:.]?\s*` (case-insensitive) at the head. -/
def matchQuestionDelim (cs : List Char) : Option (List Char) :=
  (matchCI cs "question ".data).bind fun r1 =>
  (matchDigits1 r1).map fun r2 =>
  (dropOneOf [':', '.'] r2).dropWhile Char.isWhitespace

/-- Pattern `\d+\.\s*` at the head. -/
def matchNumDotDelim (cs : List Char) : Option (List Char) :=
  (matchDigits1 cs).bind fun r1 =>
  match r1 with
  | '.' :: r2 => some (r2.dropWhile Char.isWhitespace)
  | _ => none

/-- The split delimiter `(?:Question \d+[:.]?\s*|\d+\.\s*)/i`, trying
the alternatives in regex order. -/
def matchQDelim (cs : List Char) : Option (List Char) :=
  (matchQuestionDelim cs).orElse fun _ => matchNumDotDelim cs

theorem length_dropWhile_le (p : Char → Bool) (l : List Char) :
    (l.dropWhile p).length ≤ l.length := by
  induction l with
  | nil => simp
  | cons c rest ih =>
    rw [List.dropWhile]
    cases p c
    · simp
    · simp
      omega

theorem matchCI_length :
    ∀ {pat cs rem : List Char}, matchCI cs pat = some rem →
      rem.length + pat.length = cs.length := by
  intro pat
  induction pat with
  | nil =>
    intro cs rem h
    cases cs <;> simp [matchCI] at h <;> simp [h]
  | cons p prest ih =>
    intro cs rem h
    cases cs with
    | nil => simp [matchCI] at h
    | cons c rest =>
      rw [matchCI] at h
      split at h
      · have := ih h
        simp only [List.length_cons]
        omega
      · exact absurd h (by simp)

theorem matchDigits1_length {cs rem : List Char}
    (h : matchDigits1 cs = some rem) : rem.length < cs.length := by
  cases cs with
  | nil => simp [matchDigits1] at h
  | cons c rest =>
    rw [matchDigits1] at h
    split at h
    · injection h with h
      rw [← h]
      exact Nat.lt_succ_of_le (length_dropWhile_le _ _)
    · exact absurd h (by simp)

theorem dropOneOf_length (set cs : List Char) :
    (dropOneOf set cs).length ≤ cs.length := by
  cases cs with
  | nil => exact Nat.le_refl _
  | cons c rest =>
    rw [dropOneOf]
    split
    · exact Nat.le_succ _
    · exact Nat.le_refl _

theorem matchQuestionDelim_length {cs rem : List Char}
    (h : matchQuestionDelim cs = some rem) : rem.length < cs.length := by
  rw [matchQuestionDelim] at h
  rcases h1 : matchCI cs "question ".data with _ | ⟨r1⟩ <;> rw [h1] at h
  · exact absurd h (by simp)
  · simp only [Option.some_bind] at h
    rcases h2 : matchDigits1 r1 with _ | ⟨r2⟩ <;> rw [h2] at h
    · exact absurd h (by simp)
    · simp only [Option.map_some'] at h
      injection h with h
      have h9 : ("question ".data).length = 9 := rfl
      have hc := matchCI_length h1
      rw [h9] at hc
      have hd : r2.length < r1.length := matchDigits1_length h2
      have he : rem.length ≤ r2.length := by
        rw [← h]
        exact le_trans (length_dropWhile_le _ _) (dropOneOf_length _ _)
      omega

theorem matchNumDotDelim_length {cs rem : List Char}
    (h : matchNumDotDelim cs = some rem) : rem.length < cs.length := by
  rw [matchNumDotDelim] at h
  rcases h1 : matchDigits1 cs with _ | ⟨r1⟩ <;> rw [h1] at h
  · exact absurd h (by simp)
  · simp only [Option.some_bind] at h
    have hd : r1.length < cs.length := matchDigits1_length h1
    split at h
    · rename_i r2
      injection h with h
      have h3 : rem.length ≤ r2.length := h ▸ length_dropWhile_le _ _
      simp only [List.length_cons] at hd
      omega
    · exact absurd h (by simp)

theorem matchQDelim_length {cs rem : List Char}
    (h : matchQDelim cs = some rem) : rem.length < cs.length := by
  rw [matchQDelim] at h
  rcases h1 : matchQuestionDelim cs with _ | ⟨r1⟩ <;> rw [h1] at h
  · exact matchNumDotDelim_length (by simpa using h)
  · have h2 : rem = r1 := by simpa using h.symm
    subst h2
    exact matchQuestionDelim_length h1

set_option linter.unusedVariables false in
/-- The split
`cleanContent.split(/(?:Question \d+[:.]?\s*|\d+\.\s*)/i)`:
left-to-right non-overlapping delimiter matches cut the text
(`current` accumulates the running segment in reverse). -/
def splitQDelim (current : List Char) (cs : List Char) : List String :=
  match cs with
  | [] => [String.mk current.reverse]
  | c :: rest =>
    match h : matchQDelim (c :: rest) with
    | some rem => String.mk current.reverse :: splitQDelim [] rem
    | none => splitQDelim (c :: current) rest
termination_by cs.length
decreasing_by
  · exact matchQDelim_length h
  · simp

/-- The backtick character. -/
def backtickChar : Char := Char.ofNat 96

/-- The literal tail of the first clean-up regex at the current
position: `Here (they are|are the questions)[:\s]*` followed by two
backticks and an optional third. -/
def matchHereIntro (cs : List Char) : Option (List Char) :=
  (matchCI cs "here ".data).bind fun r1 =>
  ((matchCI r1 "they are".data).orElse fun _ =>
    matchCI r1 "are the questions".data).bind fun r2 =>
  match r2.dropWhile (fun c => c == ':' || c.isWhitespace) with
  | c1 :: c2 :: rest =>
    if c1 = backtickChar ∧ c2 = backtickChar then
      some (dropOneOf [backtickChar] rest)
    else none
  | _ => none

/-- The anchored lazy scan of
`/^.*?Here (they are|are the questions)[:\s]*``\x60?/i`: try the
literal part at each position, never crossing a newline. -/
def replaceIntroFrom (cs : List Char) : Option (List Char) :=
  match matchHereIntro cs with
  | some rem => some rem
  | none =>
    match cs with
    | [] => none
    | c :: rest => if c = '\n' then none else replaceIntroFrom rest

/-- The first clean-up `replace` (with the empty replacement, the result
is the remainder after the match; no match leaves the text unchanged). -/
def replaceIntro (cs : List Char) : List Char :=
  (replaceIntroFrom cs).getD cs

/-- Does a match of the second clean-up regex (three backticks, then
only whitespace to the end) start here? -/
def ticksToEnd : List Char → Bool
  | t1 :: t2 :: t3 :: rest =>
      t1 == backtickChar && t2 == backtickChar && t3 == backtickChar &&
        rest.all Char.isWhitespace
  | _ => false

/-- The second clean-up `replace`: cut at the leftmost trailing code
fence. -/
def replaceFence : List Char → List Char
  | [] => []
  | c :: rest => if ticksToEnd (c :: rest) then [] else c :: replaceFence rest

/-- The tail `Here (they are|are)[:\s]*` of the third clean-up regex at
the current position. -/
def matchHereShort (cs : List Char) : Option (List Char) :=
  (matchCI cs "here ".data).bind fun r1 =>
  ((matchCI r1 "they are".data).orElse fun _ =>
    matchCI r1 "are".data).map fun r2 =>
  r2.dropWhile (fun c => c == ':' || c.isWhitespace)

/-- The lazy `.*?Here (they are|are)[:\s]*` scan (never crossing a
newline). -/
def scanHereShort (cs : List Char) : Option (List Char) :=
  match matchHereShort cs with
  | some rem => some rem
  | none =>
    match cs with
    | [] => none
    | c :: rest => if c = '\n' then none else scanHereShort rest

/-- The third clean-up regex
`OK\.\s*I have retrieved.*?Here (they are|are)[:\s]*` (case-insensitive)
at the current position. -/
def matchRetrieved (cs : List Char) : Option (List Char) :=
  (matchCI cs "ok.".data).bind fun r1 =>
  (matchCI (r1.dropWhile Char.isWhitespace) "i have retrieved".data).bind
    scanHereShort

/-- The third clean-up `replace`: remove the leftmost match anywhere in
the text. -/
def replaceRetrieved (cs : List Char) : List Char :=
  match matchRetrieved cs with
  | some rem => rem
  | none =>
    match cs with
    | [] => []
    | c :: rest => c :: replaceRetrieved rest

/-- The three chained clean-up `.replace`s followed by `.trim()`. -/
def cleanQuizContent (content : String) : String :=
  jsTrim (String.mk (replaceRetrieved (replaceFence (replaceIntro content.data))))

/-- Test `line.match(/^[A-D][.)]\s*/)` (as a Boolean, which is how the
code uses it). -/
def isLetterOpt (cs : List Char) : Bool :=
  match cs with
  | c1 :: c2 :: _ =>
      (decide ('A' ≤ c1) && decide (c1 ≤ 'D')) && (c2 == '.' || c2 == ')')
  | _ => false

/-- Test `line.match(/^[•-]\s*/)` (as a Boolean). -/
def isBulletOpt (cs : List Char) : Bool :=
  match cs with
  | c :: _ => c == '•' || c == '-'
  | [] => false

/-- Strip `line.replace(/^[A-D][.)]?\s*/, '')` (note the optional
`[.)]`, unlike the match test). -/
def stripLetterMark (cs : List Char) : List Char :=
  match cs with
  | c1 :: rest =>
    if 'A' ≤ c1 ∧ c1 ≤ 'D' then
      (dropOneOf ['.', ')'] rest).dropWhile Char.isWhitespace
    else cs
  | [] => []

/-- Strip `.replace(/^[•-]\s*/, '')`. -/
def stripBulletMark (cs : List Char) : List Char :=
  match cs with
  | c :: rest =>
    if c = '•' ∨ c = '-' then rest.dropWhile Char.isWhitespace else cs
  | [] => []

/-- Strip `lines[0].replace(/^\d+\.\s*/, '')`. -/
def stripNumDot (cs : List Char) : List Char :=
  match matchNumDotDelim cs with
  | some rem => rem
  | none => cs

/-- One iteration of the option loop: an option-shaped line is stripped
of its marker and trimmed, and pushed when non-empty. -/
def optionOfLine (line : String) : Option String :=
  if isLetterOpt line.data || isBulletOpt line.data then
    let o := jsTrim (String.mk (stripBulletMark (stripLetterMark line.data)))
    if o = "" then none else some o
  else none

/-- A quiz question of the learning-page view model. -/
structure QuizQuestion where
  question : String
  options : List String
  correct : String
deriving Repr

/-- Per-block lines:
`block.trim().split('\n').map(l => l.trim()).filter(l => l)`. -/
def blockLines (block : String) : List String :=
  (((jsTrim block).splitOn "\n").map jsTrim).filter (fun l => l != "")

/-- Processing of one question block: the first line (with a leading
`\d+\.` stripped) is the question text, subsequent option-shaped lines
are collected, and the question is kept only when the text is non-empty
and at least two options were found; `correct` is hardcoded to `'B'`. -/
def parseBlock (block : String) : Option QuizQuestion :=
  match blockLines block with
  | [] => none
  | l0 :: rest =>
    let questionText := jsTrim (String.mk (stripNumDot l0.data))
    let options := rest.filterMap optionOfLine
    if questionText ≠ "" ∧ 2 ≤ options.length then
      some ⟨questionText, options, "B"⟩
    else none

/-- The three built-in default questions. -/
def defaultQuestions : List QuizQuestion :=
  [⟨"What is the primary benefit of a diversified investment portfolio?",
    ["Guaranteed high returns", "Reduced overall risk",
     "Elimination of all fees", "Quick and easy access to cash"], "B"⟩,
   ⟨"What should be your first step in financial planning?",
    ["Invest in stocks", "Create an emergency fund", "Buy insurance",
     "Take out a loan"], "B"⟩,
   ⟨"What is compound interest?",
    ["Interest on the original amount only",
     "Interest earned on both principal and accumulated interest",
     "A type of bank fee", "A government tax"], "B"⟩]

/-- The questions scraped from the reply: clean, split into blocks,
drop blank blocks, parse each block. -/
def parsedQuestions (content : String) : List QuizQuestion :=
  ((splitQDelim [] (cleanQuizContent content).data).filter
      (fun b => jsTrim b != "")).filterMap parseBlock

/-- The outcome of `parseQuizQuestions`: the stored questions and the
reset quiz interaction state (`currentQuizIndex.set(0)` and
`resetQuizState()`). -/
structure QuizOutcome where
  quizQuestions : List QuizQuestion
  currentQuizIndex : Nat
  selectedAnswerIndex : Option Nat
  quizCompleted : Bool
  showQuizFeedback : Bool
deriving Repr

/-- The regex revision of `parseQuizQuestions`, for
`content = response.response || ''`: scraped questions, or the three
defaults when nothing parsed, then the quiz state reset. -/
def parseQuizQuestions (content : String) : QuizOutcome :=
  { quizQuestions :=
      if (parsedQuestions content).isEmpty then defaultQuestions
      else parsedQuestions content
    currentQuizIndex := 0
    selectedAnswerIndex := none
    quizCompleted := false
    showQuizFeedback := false }

/-- Every block that parses yields at least two options and the
hardcoded correct letter `'B'`. -/
theorem parseBlock_shape {b : String} {q : QuizQuestion}
    (h : parseBlock b = some q) :
    2 ≤ q.options.length ∧ q.correct = "B" := by
  rw [parseBlock] at h
  rcases hl : blockLines b with _ | ⟨l0, rest⟩ <;> rw [hl] at h
  · exact absurd h (by simp)
  · simp only at h
    split at h
    · rename_i hcond
      injection h with h
      rw [← h]
      exact ⟨hcond.2, rfl⟩
    · exact absurd h (by simp)

end Quiz

/-- C9: for every input text, `parseQuizQuestions` stores a non-empty
quiz in which every question has at least two options and `correct` is
always the letter `'B'` (questions scraped from the reply are stored
with `correct` hardcoded to `'B'`, and when nothing parses the three
built-in defaults are used); afterwards `currentQuizIndex` is 0 and the
quiz interaction state is cleared. -/
theorem claim_C9 : ∀ content : String,
    (Quiz.parseQuizQuestions content).quizQuestions ≠ [] ∧
    (∀ q ∈ (Quiz.parseQuizQuestions content).quizQuestions,
      2 ≤ q.options.length ∧ q.correct = "B") ∧
    (Quiz.parseQuizQuestions content).currentQuizIndex = 0 ∧
    (Quiz.parseQuizQuestions content).selectedAnswerIndex = none ∧
    (Quiz.parseQuizQuestions content).quizCompleted = false ∧
    (Quiz.parseQuizQuestions content).showQuizFeedback = false := by
  intro content
  refine ⟨?_, ?_, rfl, rfl, rfl, rfl⟩
  · by_cases hempty : (Quiz.parsedQuestions content).isEmpty
    · simp [Quiz.parseQuizQuestions, hempty, Quiz.defaultQuestions]
    · have hne : Quiz.parsedQuestions content ≠ [] := by
        intro hnil
        rw [hnil] at hempty
        exact hempty rfl
      simpa [Quiz.parseQuizQuestions, hempty] using hne
  · intro q hq
    by_cases hempty : (Quiz.parsedQuestions content).isEmpty
    · simp only [Quiz.parseQuizQuestions, hempty, if_true] at hq
      fin_cases hq <;> exact ⟨by norm_num, rfl⟩
    · simp only [Quiz.parseQuizQuestions, hempty, if_false] at hq
      rw [Quiz.parsedQuestions] at hq
      obtain ⟨b, _, hb⟩ := List.mem_filterMap.mp hq
      exact Quiz.parseBlock_shape hb

end AgentWealth
